import Mathlib

/-!
Verification development for the SunRe AVS weather-oracle backend.

This file gives a shallow embedding, in Lean 4, of the Go code of the
repository: the MAD-based consensus engine (`internal/consensus`), the
parametric claims processor (`internal/insurance`), the aggregator task
store (`internal/aggregator`) and the API-sharding helper of the
temperature-oracle binary.  Time is modelled as an explicit rational
parameter (`now`, in seconds); Go `float64` arithmetic is modelled by
exact rational arithmetic (`ℚ`), with `math.Sqrt` landing in `ℝ`;
SHA-256 digests are modelled by the exact byte stream that the code
hashes (a collision-free abstraction: equal streams give equal digests).
-/

namespace Sunre

/-- One weather reading from one source (Go type `types.DataPoint`).
`Timestamp` is in seconds; `Signature` abstracts the signature bytes. -/
structure DataPoint where
  Source : String
  Temperature : ℚ
  Timestamp : ℚ
  Confidence : ℚ
  Signature : ℕ
deriving DecidableEq, Repr

/-- The stream hashed by `ConsensusEngine.aggregateSignatures`: for each kept
data point, its source, its temperature (the code writes `%.2f` of it) and its
sample signature.  SHA-256 itself is abstracted as the identity on the
stream. -/
def SigStream : Type := List (String × ℚ × ℕ)
deriving DecidableEq, Repr

/-- Result of the consensus engine (Go type `types.ConsensusResult`).  The
confidence is a real number because the code takes a square root. -/
structure ConsensusResult where
  TaskID : String
  Temperature : ℚ
  MeetsThreshold : Bool
  Confidence : ℝ
  DataPoints : List DataPoint
  AggregatedSig : SigStream
  Timestamp : ℚ

/-- Configuration of the consensus engine (Go type `consensus.ConsensusEngine`). -/
structure ConsensusEngine where
  MinSources : ℕ
  madThreshold : ℚ
deriving DecidableEq, Repr

/-- Errors returned by `ReachConsensus`. -/
inductive ConsensusErr where
  | insufficientSources
  | tooManyOutliers
deriving DecidableEq, Repr

/-- Insertion of a rational into a sorted list (model of Go `sort.Float64s`). -/
def insertR (x : ℚ) : List ℚ → List ℚ
  | [] => [x]
  | y :: ys => if x ≤ y then x :: y :: ys else y :: insertR x ys

/-- Sorting, used by `calculateMedian` (the Go code sorts a copy). -/
def sortR (l : List ℚ) : List ℚ := l.foldr insertR []

/-- Go `ConsensusEngine.calculateMedian`.  For the empty list the Go code
would panic on an out-of-range index; we return 0 there (the callers that the
claims range over never pass an empty list). -/
def calculateMedian (values : List ℚ) : ℚ :=
  let sorted := sortR values
  let n := sorted.length
  if n % 2 = 0 then (sorted.getD (n / 2 - 1) 0 + sorted.getD (n / 2) 0) / 2
  else sorted.getD (n / 2) 0

/-- Go `ConsensusEngine.calculateMAD`: median of absolute deviations. -/
def calculateMAD (values : List ℚ) (median : ℚ) : ℚ :=
  calculateMedian (values.map (fun v => |v - median|))

/-- Go `ConsensusEngine.filterOutliers`: keep points within
`madThreshold * mad` of the median, where a zero `mad` is floored to 0.01. -/
def filterOutliers (c : ConsensusEngine) (dataPoints : List DataPoint)
    (median mad : ℚ) : List DataPoint :=
  let mad2 := if mad = 0 then 1 / 100 else mad
  dataPoints.filter (fun dp => |dp.Temperature - median| ≤ c.madThreshold * mad2)

/-- Go `ConsensusEngine.getSourceReliabilityScore`. -/
def getSourceReliabilityScore (source : String) : ℚ :=
  if source = "OpenWeatherMap" then 95 / 100
  else if source = "WeatherAPI" then 93 / 100
  else if source = "TomorrowIO" then 92 / 100
  else if source = "VisualCrossing" then 90 / 100
  else if source = "OpenMeteo" then 88 / 100
  else 8 / 10

/-- Sample age in minutes at evaluation instant `now` (Go
`time.Since(dp.Timestamp).Minutes()`, with timestamps in seconds). -/
def ageMinutes (now : ℚ) (dp : DataPoint) : ℚ := (now - dp.Timestamp) / 60

/-- The per-point weight computed by the first loop of Go
`ConsensusEngine.calculateReliabilityWeights`: start at 1, age penalty when
older than five minutes, multiply by the confidence when positive, multiply by
the source score. -/
def rawReliabilityWeight (now : ℚ) (dp : DataPoint) : ℚ :=
  let w1 : ℚ := 1
  let age := ageMinutes now dp
  let w2 := if 5 < age then w1 * max (1 / 2) (1 - age / 60) else w1
  let w3 := if 0 < dp.Confidence then w2 * dp.Confidence else w2
  w3 * getSourceReliabilityScore dp.Source

/-- Go `ConsensusEngine.calculateReliabilityWeights`: the raw weights, then a
second pass clamping each to at least 0.1. -/
def calculateReliabilityWeights (now : ℚ) (dataPoints : List DataPoint) : List ℚ :=
  let weights := dataPoints.map (rawReliabilityWeight now)
  weights.map (fun w => if w < 1 / 10 then 1 / 10 else w)

/-- Go `ConsensusEngine.calculateAgreementScore`. -/
def calculateAgreementScore (dataPoints : List DataPoint) (consensusTemp : ℚ) : ℚ :=
  if dataPoints = [] then 0
  else
    let totalDeviation := dataPoints.foldl (fun a dp => a + |dp.Temperature - consensusTemp|) 0
    let avgDeviation := totalDeviation / dataPoints.length
    max 0 (1 - avgDeviation / 5)

/-- Go `ConsensusEngine.aggregateSignatures`, modelled as the hashed stream. -/
def aggregateSignatures (dataPoints : List DataPoint) : SigStream :=
  dataPoints.map (fun dp => (dp.Source, dp.Temperature, dp.Signature))

/-- The `weightedSum` accumulation loop of Go
`ConsensusEngine.weightedConsensus`. -/
def weightedSumFold (now : ℚ) (dataPoints : List DataPoint) : ℚ :=
  (dataPoints.zip (calculateReliabilityWeights now dataPoints)).foldl
    (fun a p => a + p.1.Temperature * p.2) 0

/-- The `totalWeight` accumulation loop of Go
`ConsensusEngine.weightedConsensus`. -/
def totalWeightFold (now : ℚ) (dataPoints : List DataPoint) : ℚ :=
  (dataPoints.zip (calculateReliabilityWeights now dataPoints)).foldl
    (fun a p => a + p.2) 0

/-- The `variance` accumulation loop of Go
`ConsensusEngine.weightedConsensus` (before the division by the total
weight). -/
def varianceFold (now : ℚ) (dataPoints : List DataPoint) (consensusTemp : ℚ) : ℚ :=
  (dataPoints.zip (calculateReliabilityWeights now dataPoints)).foldl
    (fun a p => a + p.2 * (p.1.Temperature - consensusTemp) * (p.1.Temperature - consensusTemp))
    0

/-- Go `ConsensusEngine.weightedConsensus`: returns the consensus temperature
and the confidence.  Empty input gives (0, 0); zero total weight falls back to
the median with confidence 0.5. -/
noncomputable def weightedConsensus (now : ℚ) (dataPoints : List DataPoint) : ℚ × ℝ :=
  if dataPoints = [] then (0, 0)
  else
    let weightedSum := weightedSumFold now dataPoints
    let totalWeight := totalWeightFold now dataPoints
    if totalWeight = 0 then
      (calculateMedian (dataPoints.map (fun dp => dp.Temperature)), (1 : ℝ) / 2)
    else
      let consensusTemp := weightedSum / totalWeight
      let variance := varianceFold now dataPoints consensusTemp / totalWeight
      let confidence : ℝ := 1 - min (Real.sqrt ((variance : ℚ) : ℝ) / 10) 1
      let agreementScore := calculateAgreementScore dataPoints consensusTemp
      (consensusTemp, (confidence + ((agreementScore : ℚ) : ℝ)) / 2)

/-- Go `ConsensusEngine.ReachConsensus` at evaluation instant `now`. -/
noncomputable def reachConsensus (c : ConsensusEngine) (now : ℚ)
    (dataPoints : List DataPoint) : Except ConsensusErr ConsensusResult :=
  if dataPoints.length < c.MinSources then .error .insufficientSources
  else
    let temperatures := dataPoints.map (fun dp => dp.Temperature)
    let median := calculateMedian temperatures
    let mad := calculateMAD temperatures median
    let filteredPoints := filterOutliers c dataPoints median mad
    if filteredPoints.length < c.MinSources then .error .tooManyOutliers
    else
      let tc := weightedConsensus now filteredPoints
      .ok { TaskID := ""
            Temperature := tc.1
            MeetsThreshold := false
            Confidence := tc.2
            DataPoints := filteredPoints
            AggregatedSig := aggregateSignatures filteredPoints
            Timestamp := now }

/-! Insurance data model (Go package `types`, insurance part). -/

/-- Claim decision status (Go type `types.ClaimStatus`); `partialPay` models
the Go constant `ClaimPartial`. -/
inductive ClaimStatus where
  | approved
  | rejected
  | partialPay
  | pending
  | investigate
deriving DecidableEq, Repr

/-- Weather peril kinds (Go type `types.WeatherPeril`). -/
inductive WeatherPeril where
  | heatWave
  | coldSnap
  | drought
  | excessRain
  | frost
  | highWind
  | hail
deriving DecidableEq, Repr

/-- Go type `types.TimeWindow` (months 1..12; 0 meaning unset). -/
structure TimeWindow where
  StartMonth : ℕ
  EndMonth : ℕ
  StartHour : ℕ
  EndHour : ℕ
deriving DecidableEq, Repr

/-- Go type `types.TriggerConditions` (the fields the claims processor reads). -/
structure TriggerConditions where
  TemperatureMin : Option ℚ
  TemperatureMax : Option ℚ
  ConsecutiveDays : ℕ
  TimeWindow : TimeWindow
deriving DecidableEq, Repr

/-- Go type `types.InsuranceTrigger`; `payoutFrac` models the source field
`PayoutRatio`. -/
structure InsuranceTrigger where
  TriggerID : String
  Peril : WeatherPeril
  Conditions : TriggerConditions
  payoutFrac : ℚ
  Description : String
deriving DecidableEq, Repr

/-- Go type `types.InsurancePolicy` (dates in seconds). -/
structure InsurancePolicy where
  PolicyID : String
  PolicyHolder : String
  CoverageAmount : ℚ
  Premium : ℚ
  StartDate : ℚ
  EndDate : ℚ
  Triggers : List InsuranceTrigger
deriving DecidableEq, Repr

/-- A calendar instant as the claims processor consumes it: the raw time in
seconds (compared with `Before`/`After`) together with its month 1..12 (Go
`date.Month()`). -/
structure CDate where
  time : ℚ
  month : ℕ
deriving DecidableEq, Repr

/-- Go type `types.WeatherEvidence`.  The Go code never assigns the
`Confidence` field, so it always carries the zero value 0. -/
structure WeatherEvidence where
  DataPoints : List DataPoint
  AverageTemp : ℚ
  MinTemp : ℚ
  MaxTemp : ℚ
  ConsecutiveDays : ℕ
  Confidence : ℚ
deriving DecidableEq, Repr

/-- Go type `types.TriggeredPeril`; `payoutFrac` models the source field
`PayoutRatio`. -/
structure TriggeredPeril where
  Peril : WeatherPeril
  TriggerID : String
  ConditionsMet : Bool
  payoutFrac : ℚ
  Evidence : WeatherEvidence
deriving DecidableEq, Repr

/-- Go type `types.ExtremeEvent`; `TempValue` models the single entry of the
`Values` map, and the formatted `Description` string is elided. -/
structure ExtremeEvent where
  Date : ℚ
  EventType : WeatherPeril
  Severity : String
  TempValue : ℚ
deriving DecidableEq, Repr

/-- Go type `types.WeatherSummary`. -/
structure WeatherSummary where
  AverageTemperature : ℚ
  MaxTemperature : ℚ
  MinTemperature : ℚ
  ExtremeEvents : List ExtremeEvent
deriving DecidableEq, Repr

/-- Go type `types.WeatherAssessment` (the `DateRange` is inlined). -/
structure WeatherAssessment where
  PeriodStart : ℚ
  PeriodEnd : ℚ
  LocationVerified : Bool
  DataSources : ℕ
  ConsensusMethod : String
  WeatherSummary : WeatherSummary
deriving DecidableEq, Repr

/-- The data hashed by `generateVerificationHash`: the policy id, the
`(temperature, source)` stream, and the `(peril, ratio)` stream; SHA-256 is
abstracted as the identity on this data. -/
structure VHash where
  policyId : String
  observations : List (ℚ × String)
  perils : List (WeatherPeril × ℚ)
deriving DecidableEq, Repr

/-- The data hashed by `generateClaimID`: the policy id and the claim date's
unix seconds. -/
structure ClaimID where
  policyId : String
  claimUnix : ℚ
deriving DecidableEq, Repr

/-- Go type `types.InsuranceClaimResponse`. -/
structure InsuranceClaimResponse where
  ClaimID : ClaimID
  PolicyID : String
  ClaimStatus : ClaimStatus
  TriggeredPerils : List TriggeredPeril
  PayoutAmount : ℚ
  WeatherData : WeatherAssessment
  VerificationHash : VHash
  Timestamp : ℚ
deriving DecidableEq, Repr

/-- Error kinds of `ClaimsProcessor.ProcessClaim` (the only error it
constructs is the out-of-period one). -/
inductive ClaimErr where
  | outOfPolicyPeriod
deriving DecidableEq, Repr

/-! Claims processor (Go package `insurance`). -/

/-- Go helper `average` (file `claims_processor.go`): 0 on the empty list. -/
def average (nums : List ℚ) : ℚ :=
  if nums = [] then 0 else nums.sum / nums.length

/-- Go helper `min`: first element folded with pointwise minimum, 0 on []. -/
def listMin : List ℚ → ℚ
  | [] => 0
  | x :: xs => xs.foldl min x

/-- Go helper `max`: first element folded with pointwise maximum, 0 on []. -/
def listMax : List ℚ → ℚ
  | [] => 0
  | x :: xs => xs.foldl max x

/-- Go helper `countUniqueSources`. -/
def countUniqueSources (dataPoints : List DataPoint) : ℕ :=
  ((dataPoints.map (fun dp => dp.Source)).dedup).length

/-- Go `ClaimsProcessor.checkConsecutiveDays`: longest run of data points with
temperature strictly above the threshold (each point counts as one day).  The
Go function also receives the required day count but never reads it. -/
def checkConsecutiveDays (weatherData : List DataPoint) (threshold : ℚ) : ℕ :=
  (weatherData.foldl
    (fun (p : ℕ × ℕ) dp =>
      if threshold < dp.Temperature then (p.1 + 1, max (p.1 + 1) p.2) else (0, p.2))
    (0, 0)).2

/-- Go `ClaimsProcessor.isInTimeWindow`. -/
def isInTimeWindow (date : CDate) (window : TimeWindow) : Bool :=
  if window.StartMonth = 0 ∧ window.EndMonth = 0 then true
  else if window.StartMonth ≤ window.EndMonth then
    decide (window.StartMonth ≤ date.month ∧ date.month ≤ window.EndMonth)
  else
    decide (window.StartMonth ≤ date.month ∨ date.month ≤ window.EndMonth)

/-- Go `ClaimsProcessor.checkTriggerConditions`: returns whether the trigger
fires together with the collected evidence. -/
def checkTriggerConditions (trigger : InsuranceTrigger)
    (weatherData : List DataPoint) (claimDate : CDate) : Bool × WeatherEvidence :=
  let conditions := trigger.Conditions
  let evidence0 : WeatherEvidence :=
    { DataPoints := weatherData, AverageTemp := 0, MinTemp := 0, MaxTemp := 0
      ConsecutiveDays := 0, Confidence := 0 }
  let temps := weatherData.map (fun dp => dp.Temperature)
  if temps = [] then (false, evidence0)
  else
    let evidence :=
      { evidence0 with
        AverageTemp := average temps, MinTemp := listMin temps, MaxTemp := listMax temps }
    if ∃ m, conditions.TemperatureMin = some m ∧ listMin temps < m then
      (false, evidence)
    else
      match conditions.TemperatureMax with
      | some tmax =>
        if listMax temps > tmax then
          if 0 < conditions.ConsecutiveDays then
            let consecutiveDays := checkConsecutiveDays weatherData tmax
            let evidence2 := { evidence with ConsecutiveDays := consecutiveDays }
            if consecutiveDays < conditions.ConsecutiveDays then (false, evidence2)
            else if isInTimeWindow claimDate conditions.TimeWindow then (true, evidence2)
            else (false, evidence2)
          else if isInTimeWindow claimDate conditions.TimeWindow then (true, evidence)
          else (false, evidence)
        else (false, evidence)
      | none => (false, evidence)

/-- One iteration of the trigger loop of Go
`ClaimsProcessor.evaluateTriggers`. -/
def evalTriggerStep (weatherData : List DataPoint) (claimDate : CDate)
    (acc : List TriggeredPeril) (trigger : InsuranceTrigger) : List TriggeredPeril :=
  let cm := checkTriggerConditions trigger weatherData claimDate
  if cm.1 then
    acc ++ [{ Peril := trigger.Peril, TriggerID := trigger.TriggerID
              ConditionsMet := true, payoutFrac := trigger.payoutFrac
              Evidence := cm.2 }]
  else acc

/-- Go `ClaimsProcessor.evaluateTriggers`: the triggered perils, in trigger
order. -/
def evaluateTriggers (policy : InsurancePolicy) (weatherData : List DataPoint)
    (claimDate : CDate) : List TriggeredPeril :=
  policy.Triggers.foldl (evalTriggerStep weatherData claimDate) []

/-- Go `ClaimsProcessor.calculatePayout`: coverage times the highest payout
ratio among triggered perils; 0 when nothing triggered. -/
def calculatePayout (policy : InsurancePolicy) (triggeredPerils : List TriggeredPeril) : ℚ :=
  if triggeredPerils = [] then 0
  else
    let maxRatio := triggeredPerils.foldl
      (fun m peril => if m < peril.payoutFrac then peril.payoutFrac else m) 0
    policy.CoverageAmount * maxRatio

/-- Go `ClaimsProcessor.determineClaimStatus`. -/
def determineClaimStatus (triggeredPerils : List TriggeredPeril)
    (payoutAmount : ℚ) : ClaimStatus :=
  if triggeredPerils = [] then .rejected
  else if payoutAmount = 0 then .rejected
  else if triggeredPerils.any (fun peril => peril.Evidence.Confidence < 7 / 10) then
    .investigate
  else if triggeredPerils.any (fun peril => peril.payoutFrac < 1) then .partialPay
  else .approved

/-- Go `ClaimsProcessor.getHeatSeverity`. -/
def getHeatSeverity (temp : ℚ) : String :=
  if 45 < temp then "extreme"
  else if 40 < temp then "severe"
  else if 35 < temp then "moderate"
  else "mild"

/-- Go `ClaimsProcessor.getColdSeverity`. -/
def getColdSeverity (temp : ℚ) : String :=
  if temp < -20 then "extreme"
  else if temp < -15 then "severe"
  else if temp < -10 then "moderate"
  else "mild"

/-- Go `ClaimsProcessor.detectExtremeEvents`. -/
def detectExtremeEvents (weatherData : List DataPoint) : List ExtremeEvent :=
  weatherData.foldl
    (fun events dp =>
      let events2 :=
        if 35 < dp.Temperature then
          events ++ [{ Date := dp.Timestamp, EventType := .heatWave
                       Severity := getHeatSeverity dp.Temperature
                       TempValue := dp.Temperature }]
        else events
      if dp.Temperature < -10 then
        events2 ++ [{ Date := dp.Timestamp, EventType := .coldSnap
                      Severity := getColdSeverity dp.Temperature
                      TempValue := dp.Temperature }]
      else events2)
    []

/-- Go `ClaimsProcessor.createWeatherAssessment` (`AddDate(0,0,-7)` modelled
as seven days of seconds). -/
def createWeatherAssessment (weatherData : List DataPoint) (claimDate : CDate) :
    WeatherAssessment :=
  let temps := weatherData.map (fun dp => dp.Temperature)
  { PeriodStart := claimDate.time - 7 * 86400
    PeriodEnd := claimDate.time
    LocationVerified := true
    DataSources := countUniqueSources weatherData
    ConsensusMethod := "MAD"
    WeatherSummary :=
      { AverageTemperature := average temps
        MaxTemperature := listMax temps
        MinTemperature := listMin temps
        ExtremeEvents := detectExtremeEvents weatherData } }

/-- Go `ClaimsProcessor.generateClaimID`, modelled as the hashed data. -/
def generateClaimID (policyID : String) (claimDate : CDate) : ClaimID :=
  { policyId := policyID, claimUnix := claimDate.time }

/-- Go `ClaimsProcessor.generateVerificationHash`, modelled as the hashed
data. -/
def generateVerificationHash (policy : InsurancePolicy)
    (weatherData : List DataPoint) (triggeredPerils : List TriggeredPeril) : VHash :=
  { policyId := policy.PolicyID
    observations := weatherData.map (fun dp => (dp.Temperature, dp.Source))
    perils := triggeredPerils.map (fun peril => (peril.Peril, peril.payoutFrac)) }

/-- Go `ClaimsProcessor.ProcessClaim` at evaluation instant `now`: Go returns
the pair `(*InsuranceClaimResponse, error)`; on an out-of-period claim date it
returns a rejected response TOGETHER with a non-nil error. -/
def processClaim (policy : InsurancePolicy) (weatherData : List DataPoint)
    (claimDate : CDate) (now : ℚ) : InsuranceClaimResponse × Option ClaimErr :=
  if claimDate.time < policy.StartDate ∨ policy.EndDate < claimDate.time then
    ({ ClaimID := generateClaimID policy.PolicyID claimDate
       PolicyID := policy.PolicyID
       ClaimStatus := .rejected
       TriggeredPerils := []
       PayoutAmount := 0
       WeatherData :=
         { PeriodStart := 0, PeriodEnd := 0, LocationVerified := false
           DataSources := 0, ConsensusMethod := ""
           WeatherSummary :=
             { AverageTemperature := 0, MaxTemperature := 0, MinTemperature := 0
               ExtremeEvents := [] } }
       VerificationHash := { policyId := "", observations := [], perils := [] }
       Timestamp := now }, some .outOfPolicyPeriod)
  else
    let triggeredPerils := evaluateTriggers policy weatherData claimDate
    let payoutAmount := calculatePayout policy triggeredPerils
    let claimStatus := determineClaimStatus triggeredPerils payoutAmount
    let assessment := createWeatherAssessment weatherData claimDate
    let verificationHash := generateVerificationHash policy weatherData triggeredPerils
    ({ ClaimID := generateClaimID policy.PolicyID claimDate
       PolicyID := policy.PolicyID
       ClaimStatus := claimStatus
       TriggeredPerils := triggeredPerils
       PayoutAmount := payoutAmount
       WeatherData := assessment
       VerificationHash := verificationHash
       Timestamp := now }, none)

/-! Aggregator (Go package `aggregator`). -/

/-- Go type `types.Location`. -/
structure Location where
  Latitude : ℚ
  Longitude : ℚ
  City : String
  Country : String
deriving DecidableEq, Repr

/-- Go type `types.TemperatureTask`. -/
structure TemperatureTask where
  TaskID : String
  Location : Location
  Threshold : ℚ
  Timestamp : ℚ
  ChainID : ℕ
deriving DecidableEq, Repr

/-- Go type `types.OperatorResponse` (signature bytes abstracted). -/
structure OperatorResponse where
  OperatorID : String
  TaskID : String
  DataPoints : List DataPoint
  Signature : ℕ
  Timestamp : ℚ
deriving DecidableEq, Repr

/-- Go type `types.TaskDistribution`. -/
structure TaskDistribution where
  TaskID : String
  Task : TemperatureTask
  AssignedAPIs : List String
  Deadline : ℚ
deriving DecidableEq, Repr

/-- Go type `types.TaskStatus`. -/
inductive TaskStatus where
  | Pending
  | Distributed
  | Executing
  | Aggregating
  | Completed
  | Failed
deriving DecidableEq, Repr

/-- Go type `types.TaskState`. -/
structure TaskState where
  Task : TemperatureTask
  Status : TaskStatus
  Operators : List String
  Responses : List OperatorResponse
  ConsensusResultOpt : Option ConsensusResult
  CreatedAt : ℚ
  UpdatedAt : ℚ

/-- Errors of the aggregator operations the claims range over. -/
inductive AggErr where
  | taskNotFound
  | wrongState
  | unassignedOperator
  | duplicateResponse
deriving DecidableEq, Repr

/-- The aggregator's `taskStates` map (Go `map[string]*types.TaskState`),
modelled as an association list: at most one binding per key. -/
def TaskMap : Type := List (String × TaskState)

/-- Lookup in the task map. -/
def mapGet (m : TaskMap) (k : String) : Option TaskState :=
  match m with
  | [] => none
  | (k2, v) :: rest => if k2 = k then some v else mapGet rest k

/-- Map update: replace the binding for `k` if present, else append it. -/
def mapSet (m : TaskMap) (k : String) (v : TaskState) : TaskMap :=
  match m with
  | [] => [(k, v)]
  | (k2, v2) :: rest => if k2 = k then (k2, v) :: rest else (k2, v2) :: mapSet rest k v

/-- Go `Aggregator.CreateTask` at instant `now`: builds a fresh `Pending`
state, stores it under the task's id unconditionally (overwriting any
existing binding), and returns it with a nil error. -/
def createTask (m : TaskMap) (task : TemperatureTask) (now : ℚ) :
    TaskMap × TaskState × Option AggErr :=
  let taskState : TaskState :=
    { Task := task, Status := .Pending, Operators := [], Responses := []
      ConsensusResultOpt := none, CreatedAt := now, UpdatedAt := now }
  (mapSet m task.TaskID taskState, taskState, none)

/-- Go `Aggregator.CollectResponses` at instant `now`.  The Go task state is a
pointer held by the map, so the `Distributed → Executing` transition persists
even on the error paths that follow it. -/
def collectResponses (m : TaskMap) (taskID : String) (response : OperatorResponse)
    (now : ℚ) : TaskMap × Option AggErr :=
  match mapGet m taskID with
  | none => (m, some .taskNotFound)
  | some taskState =>
    if taskState.Status ≠ .Distributed ∧ taskState.Status ≠ .Executing then
      (m, some .wrongState)
    else
      let ts1 :=
        if taskState.Status = .Distributed then { taskState with Status := .Executing }
        else taskState
      if response.OperatorID ∈ ts1.Operators then
        if ts1.Responses.any (fun r => r.OperatorID = response.OperatorID) then
          (mapSet m taskID ts1, some .duplicateResponse)
        else
          (mapSet m taskID
            { ts1 with Responses := ts1.Responses ++ [response], UpdatedAt := now },
           none)
      else (mapSet m taskID ts1, some .unassignedOperator)

/-- The operator loop of Go `Aggregator.createTaskDistributions`: walk the
operator list carrying the running `apiIndex`; each operator takes up to
`apisPerOperator` sources starting at the index, and the index resets to 0
once the source list is exhausted. -/
def distLoop (apis : List String) (per : ℕ) (idx : ℕ) :
    List String → List (List String)
  | [] => []
  | _ :: ops =>
    let chunk := (apis.drop idx).take per
    let idx2 := idx + chunk.length
    chunk :: distLoop apis per (if apis.length ≤ idx2 then 0 else idx2) ops

/-- Go `Aggregator.createTaskDistributions` at instant `now` with response
timeout `timeout` (seconds). -/
def createTaskDistributions (task : TemperatureTask) (operators : List String)
    (availableAPIs : List String) (now timeout : ℚ) : List TaskDistribution :=
  let apisPerOperator := max (availableAPIs.length / operators.length) 1
  (distLoop availableAPIs apisPerOperator 0 operators).map
    (fun chunk =>
      { TaskID := task.TaskID, Task := task, AssignedAPIs := chunk
        Deadline := now + timeout })

/-- Go `TemperatureOracle.getAPISubsetForOperator` (file
`cmd/temperature-oracle/main.go`): slice `[start:stop]` of the source list,
falling back to `[0:apisPerOperator]` when the start index runs past the
end. -/
def getAPISubsetForOperator (operatorIndex : ℕ) (apis : List String)
    (numOperators : ℕ) : List String :=
  let apisPerOperator := max (apis.length / numOperators) 1
  let start := operatorIndex * apisPerOperator
  let stop := min (start + apisPerOperator) apis.length
  if apis.length ≤ start then apis.take apisPerOperator
  else (apis.drop start).take (stop - start)

/-! Spec-side definitions.  Each of the following is written from the wording
of a claim of the specification (not from the Go source), for comparison with
the embedded code. -/

/-- The maximal payout ratio over the triggered perils — the "chosen" ratio of
the spec's payout rule. -/
def specChosenRatio (triggeredPerils : List TriggeredPeril) : ℚ :=
  triggeredPerils.foldl (fun m peril => max m peril.payoutFrac) 0

/-- The status-selection rule exactly as claim C1 states it: no trigger fired
gives `rejected`; any triggered peril with evidence confidence below 0.7 gives
`investigate`; otherwise a chosen (maximal) payout ratio below 1.0 gives
`partial`, else `approved`. -/
def specStatusC1 (triggeredPerils : List TriggeredPeril) : ClaimStatus :=
  if triggeredPerils = [] then .rejected
  else if triggeredPerils.any (fun peril => peril.Evidence.Confidence < 7 / 10) then
    .investigate
  else if specChosenRatio triggeredPerils < 1 then .partialPay
  else .approved

/-- The status-selection rule of claim C1 amended as the code forces: a claim
whose computed payout amount is 0 is also rejected, even when triggers
fired. -/
def specStatusC1Amended (triggeredPerils : List TriggeredPeril)
    (payoutAmount : ℚ) : ClaimStatus :=
  if triggeredPerils = [] ∨ payoutAmount = 0 then .rejected
  else if triggeredPerils.any (fun peril => peril.Evidence.Confidence < 7 / 10) then
    .investigate
  else if specChosenRatio triggeredPerils < 1 then .partialPay
  else .approved

/-- The per-survivor weight exactly as claim C6 states it: start at 1.0,
multiply by the age penalty `max(0.5, 1 − age/60)` when the sample is older
than five minutes, multiply by the sample confidence, multiply by the source
reliability score, then clamp to at least 0.1. -/
def specWeightC6 (now : ℚ) (dp : DataPoint) : ℚ :=
  let age := ageMinutes now dp
  let afterAge : ℚ := if 5 < age then 1 * max (1 / 2) (1 - age / 60) else 1
  max (1 / 10) (afterAge * dp.Confidence * getSourceReliabilityScore dp.Source)

/-- The per-survivor weight of claim C6 amended as the code forces: the sample
confidence multiplies the weight only when it is positive. -/
def specWeightC6Amended (now : ℚ) (dp : DataPoint) : ℚ :=
  let age := ageMinutes now dp
  let afterAge : ℚ := if 5 < age then 1 * max (1 / 2) (1 - age / 60) else 1
  let afterConf : ℚ := if 0 < dp.Confidence then afterAge * dp.Confidence else afterAge
  max (1 / 10) (afterConf * getSourceReliabilityScore dp.Source)

/-- The consensus value `Σ w_i·x_i / Σ w_i` of claim C6, with the claim's
weights as stated. -/
def specValueC6 (now : ℚ) (dataPoints : List DataPoint) : ℚ :=
  (dataPoints.map (fun dp => specWeightC6 now dp * dp.Temperature)).sum /
    (dataPoints.map (fun dp => specWeightC6 now dp)).sum

/-- The consensus value and confidence of claim C6 with the amended weights:
value `Σ w_i·x_i / Σ w_i`; weighted variance `σ² = Σ w_i(x_i−v)²/Σ w_i`;
stability `1 − min(√σ²/10, 1)`; agreement `max(0, 1 − mean(|x_i − v|)/5)`;
confidence `(stability + agreement)/2`; and when the total weight is zero the
value falls back to the median with confidence 0.5. -/
noncomputable def specConsensusC6Amended (now : ℚ) (dataPoints : List DataPoint) :
    ℚ × ℝ :=
  let totalWeight := (dataPoints.map (fun dp => specWeightC6Amended now dp)).sum
  if totalWeight = 0 then
    (calculateMedian (dataPoints.map (fun dp => dp.Temperature)), (1 : ℝ) / 2)
  else
    let v := (dataPoints.map (fun dp => specWeightC6Amended now dp * dp.Temperature)).sum /
      totalWeight
    let variance :=
      (dataPoints.map
        (fun dp => specWeightC6Amended now dp * (dp.Temperature - v) * (dp.Temperature - v))).sum /
      totalWeight
    let stability : ℝ := 1 - min (Real.sqrt ((variance : ℚ) : ℝ) / 10) 1
    let meanDev := (dataPoints.map (fun dp => |dp.Temperature - v|)).sum / dataPoints.length
    let agreement : ℚ := max 0 (1 - meanDev / 5)
    (v, (stability + ((agreement : ℚ) : ℝ)) / 2)

/-! Helper lemmas. -/

/-- Reading the task map after an update at the same key. -/
theorem mapGet_mapSet_self (m : TaskMap) (k : String) (v : TaskState) :
    mapGet (mapSet m k v) k = some v := by
  induction m with
  | nil => simp [mapGet, mapSet]
  | cons hd tl ih =>
    by_cases h : hd.1 = k
    · simp [mapGet, mapSet, h]
    · simp [mapGet, mapSet, h, ih]

/-- Reading the task map after an update at a different key. -/
theorem mapGet_mapSet_ne (m : TaskMap) (k k2 : String) (v : TaskState)
    (h : k2 ≠ k) : mapGet (mapSet m k v) k2 = mapGet m k2 := by
  have h2 : ¬k = k2 := fun hh => h hh.symm
  induction m with
  | nil => simp [mapGet, mapSet, h2]
  | cons hd tl ih =>
    by_cases hh : hd.1 = k
    · subst hh
      simp [mapGet, mapSet, h2]
    · simp only [mapSet, if_neg hh, mapGet]
      by_cases hk2 : hd.1 = k2 <;> simp [hk2, ih]

/-- A left fold of additions equals the starting value plus the list sum. -/
theorem foldl_add_map_sum {α : Type} (l : List α) (f : α → ℚ) (c : ℚ) :
    l.foldl (fun a x => a + f x) c = c + (l.map f).sum := by
  induction l generalizing c with
  | nil => simp
  | cons hd tl ih => simp [ih, add_assoc]

/-- Zipping a list with a mapped image of itself pairs each element with its
image. -/
theorem zip_self_map {α β : Type} (l : List α) (g : α → β) :
    l.zip (l.map g) = l.map (fun x => (x, g x)) := by
  induction l with
  | nil => rfl
  | cons hd tl ih => simp [ih]

/-! Concrete fixtures used by witnesses and counterexamples. -/

/-- A concrete task. -/
def taskT1 : TemperatureTask :=
  { TaskID := "t1", Location := { Latitude := 0, Longitude := 0, City := "", Country := "" }
    Threshold := 25, Timestamp := 0, ChainID := 1 }

/-- A concrete policy with an empty trigger list. -/
def policyP4 : InsurancePolicy :=
  { PolicyID := "POL-4", PolicyHolder := "holder", CoverageAmount := 1000, Premium := 10
    StartDate := 100, EndDate := 200, Triggers := [] }

/-- A concrete claim date before `policyP4`'s start. -/
def dateD4 : CDate := { time := 50, month := 5 }

/-! Claim C3. -/

/-- Claim C3 is false on the code: `CreateTask` on an already-present task id
returns a nil error (not a duplicate-task-id error) and replaces the stored
state — here the re-created task's `CreatedAt` changes from 0 to 5. -/
theorem C3_counterexample :
    (createTask (createTask [] taskT1 0).1 taskT1 5).2.2 = none ∧
    (mapGet (createTask (createTask [] taskT1 0).1 taskT1 5).1 "t1").map
      (fun ts => ts.CreatedAt) = some 5 ∧
    (mapGet (createTask [] taskT1 0).1 "t1").map (fun ts => ts.CreatedAt) = some 0 := by
  refine ⟨rfl, ?_, ?_⟩ <;> decide

/-- Claim C3 as amended: `CreateTask` never fails; it unconditionally stores a
fresh `Pending` state under the task's id (overwriting any existing state for
that id) and leaves every other key unchanged. -/
theorem C3_createTask_overwrites (m : TaskMap) (task : TemperatureTask) (now : ℚ) :
    (createTask m task now).2.2 = none ∧
    mapGet (createTask m task now).1 task.TaskID =
      some { Task := task, Status := .Pending, Operators := [], Responses := []
             ConsensusResultOpt := none, CreatedAt := now, UpdatedAt := now } ∧
    ∀ k, k ≠ task.TaskID → mapGet (createTask m task now).1 k = mapGet m k := by
  refine ⟨rfl, mapGet_mapSet_self .., fun k hk => mapGet_mapSet_ne _ _ _ _ hk⟩

/-- Witness for the amended C3 theorem at a concrete input. -/
theorem C3_createTask_overwrites_witness :
    (createTask [] taskT1 0).2.2 = none ∧
    mapGet (createTask [] taskT1 0).1 "t1" =
      some { Task := taskT1, Status := .Pending, Operators := [], Responses := []
             ConsensusResultOpt := none, CreatedAt := 0, UpdatedAt := 0 } ∧
    mapGet (createTask [] taskT1 0).1 "zz" = mapGet [] "zz" := by
  obtain ⟨h1, h2, h3⟩ := C3_createTask_overwrites [] taskT1 0
  exact ⟨h1, h2, h3 "zz" (by decide)⟩

/-! Claim C4. -/

/-- Claim C4 is false on the code: for a claim date before the policy start,
`ProcessClaim` does return a rejected decision with payout 0, but it ALSO
returns a non-nil error — the out-of-period outcome is reported as a failure
of the call, not only as a claim status. -/
theorem C4_counterexample :
    (processClaim policyP4 [] dateD4 0).1.ClaimStatus = .rejected ∧
    (processClaim policyP4 [] dateD4 0).1.PayoutAmount = 0 ∧
    (processClaim policyP4 [] dateD4 0).2 = some .outOfPolicyPeriod := by
  decide

/-- Claim C4 as amended: for every claim date strictly outside the policy
period, `ProcessClaim` returns a decision with status rejected and payout 0,
together with a non-nil out-of-period error. -/
theorem C4_outOfPeriod (p : InsurancePolicy) (w : List DataPoint) (d : CDate)
    (now : ℚ) (h : d.time < p.StartDate ∨ p.EndDate < d.time) :
    (processClaim p w d now).1.ClaimStatus = .rejected ∧
    (processClaim p w d now).1.PayoutAmount = 0 ∧
    (processClaim p w d now).2 = some .outOfPolicyPeriod := by
  unfold processClaim
  rw [if_pos h]
  exact ⟨rfl, rfl, rfl⟩

/-- Witness for the amended C4 theorem at a concrete input. -/
theorem C4_outOfPeriod_witness :
    (dateD4.time < policyP4.StartDate ∨ policyP4.EndDate < dateD4.time) ∧
    ((processClaim policyP4 [] dateD4 3).1.ClaimStatus = .rejected ∧
     (processClaim policyP4 [] dateD4 3).1.PayoutAmount = 0 ∧
     (processClaim policyP4 [] dateD4 3).2 = some .outOfPolicyPeriod) :=
  ⟨by decide, C4_outOfPeriod policyP4 [] dateD4 3 (by decide)⟩

/-! Claim C2. -/

/-- A trigger with only `temp_min` set. -/
def trigCold : InsuranceTrigger :=
  { TriggerID := "cold", Peril := .coldSnap
    Conditions :=
      { TemperatureMin := some 0, TemperatureMax := none, ConsecutiveDays := 0
        TimeWindow := { StartMonth := 0, EndMonth := 0, StartHour := 0, EndHour := 0 } }
    payoutFrac := 1, Description := "cold snap" }

/-- A single sub-zero observation. -/
def dpCold : DataPoint :=
  { Source := "A", Temperature := -5, Timestamp := 0, Confidence := 1, Signature := 0 }

/-- A concrete in-window claim date. -/
def dateD2 : CDate := { time := 0, month := 1 }

/-- Claim C2 is false on the code: for a trigger whose conditions set
`temp_min` to 0 and the observation series `[-5]` (observed minimum below
`temp_min`), `checkTriggerConditions` returns false — the condition
disqualifies the trigger instead of firing it. -/
theorem C2_counterexample :
    trigCold.Conditions.TemperatureMin = some 0 ∧
    listMin ([dpCold].map fun dp => dp.Temperature) < 0 ∧
    (checkTriggerConditions trigCold [dpCold] dateD2).1 = false := by
  decide

/-- Claim C2 as amended: a trigger never fires through `temp_min`; an observed
minimum below a set `temp_min` disqualifies it.  A trigger fires exactly when
the series is non-empty, `temp_max` is set and the observed maximum exceeds
it, `temp_min` (when set) is not undershot, the consecutive-days requirement
(when positive) is met, and the claim date lies in the time window. -/
theorem C2_trigger_fires_iff (trig : InsuranceTrigger) (w : List DataPoint) (d : CDate) :
    (checkTriggerConditions trig w d).1 = true ↔
      (w ≠ [] ∧
       (∀ tmin, trig.Conditions.TemperatureMin = some tmin →
          tmin ≤ listMin (w.map fun dp => dp.Temperature)) ∧
       ∃ tmax, trig.Conditions.TemperatureMax = some tmax ∧
         tmax < listMax (w.map fun dp => dp.Temperature) ∧
         (0 < trig.Conditions.ConsecutiveDays →
            trig.Conditions.ConsecutiveDays ≤ checkConsecutiveDays w tmax) ∧
         isInTimeWindow d trig.Conditions.TimeWindow = true) := by
  unfold checkTriggerConditions
  by_cases hw : w.map (fun dp => dp.Temperature) = []
  · have hwnil : w = [] := List.map_eq_nil_iff.mp hw
    simp [hw, hwnil]
  · have hwne : w ≠ [] := fun hh => hw (by simp [hh])
    simp only [if_neg hw]
    by_cases hmin : ∃ m, trig.Conditions.TemperatureMin = some m ∧
        listMin (w.map fun dp => dp.Temperature) < m
    · simp only [if_pos hmin]
      constructor
      · intro hfalse
        exact absurd hfalse (by simp)
      · rintro ⟨-, hall, -⟩
        obtain ⟨m, hm, hlt⟩ := hmin
        exact absurd (hall m hm) (not_le.mpr hlt)
    · simp only [if_neg hmin]
      have hminOK : ∀ tmin, trig.Conditions.TemperatureMin = some tmin →
          tmin ≤ listMin (w.map fun dp => dp.Temperature) := by
        intro tmin htm
        by_contra hcon
        exact hmin ⟨tmin, htm, not_le.mp hcon⟩
      cases htmax : trig.Conditions.TemperatureMax with
      | none => simp [hwne]
      | some tmax =>
        by_cases hgt : listMax (w.map fun dp => dp.Temperature) > tmax
        · by_cases hcd : 0 < trig.Conditions.ConsecutiveDays
          · by_cases hrun : checkConsecutiveDays w tmax < trig.Conditions.ConsecutiveDays
            · simp only [if_pos hgt, if_pos hcd, if_pos hrun]
              constructor
              · intro hfalse; exact absurd hfalse (by simp)
              · rintro ⟨-, -, tmax2, htm2, -, hreq, -⟩
                obtain rfl := Option.some.inj htm2
                exact absurd (hreq hcd) (not_le.mpr hrun)
            · by_cases hwin : isInTimeWindow d trig.Conditions.TimeWindow
              · simp only [if_pos hgt, if_pos hcd, if_neg hrun, if_pos hwin]
                constructor
                · intro _
                  exact ⟨hwne, hminOK, tmax, rfl, hgt, fun _ => not_lt.mp hrun, hwin⟩
                · intro _; trivial
              · simp only [if_pos hgt, if_pos hcd, if_neg hrun, if_neg hwin]
                constructor
                · intro hfalse; exact absurd hfalse (by simp)
                · rintro ⟨-, -, tmax2, htm2, -, -, hwin2⟩
                  obtain rfl := Option.some.inj htm2
                  exact (hwin hwin2).elim
          · by_cases hwin : isInTimeWindow d trig.Conditions.TimeWindow
            · simp only [if_pos hgt, if_neg hcd, if_pos hwin]
              constructor
              · intro _
                exact ⟨hwne, hminOK, tmax, rfl, hgt, fun hx => absurd hx hcd, hwin⟩
              · intro _; trivial
            · simp only [if_pos hgt, if_neg hcd, if_neg hwin]
              constructor
              · intro hfalse; exact absurd hfalse (by simp)
              · rintro ⟨-, -, tmax2, htm2, -, -, hwin2⟩
                obtain rfl := Option.some.inj htm2
                exact (hwin hwin2).elim
        · simp only [if_neg hgt]
          constructor
          · intro hfalse; exact absurd hfalse (by simp)
          · rintro ⟨-, -, tmax2, htm2, hgt2, -, -⟩
            obtain rfl := Option.some.inj htm2
            exact (hgt hgt2).elim

/-! Claim C7. -/

/-- Three operator names. -/
def opsThree : List String := ["op1", "op2", "op3"]

/-- Five source names. -/
def apisFive : List String := ["s1", "s2", "s3", "s4", "s5"]

/-- Claim C7 is false on the code: distributing 5 sources over 3 operators
assigns each operator ⌊5/3⌋ = 1 source, not ⌈5/3⌉ = 2 as the claim states. -/
theorem C7_counterexample :
    ((createTaskDistributions taskT1 opsThree apisFive 0 60).map
      (fun d => d.AssignedAPIs.length)) = [1, 1, 1] ∧
    ¬(∀ d ∈ createTaskDistributions taskT1 opsThree apisFive 0 60,
        d.AssignedAPIs.length = 2) := by
  decide

/-- Each chunk produced by the operator loop of `createTaskDistributions` is a
contiguous slice of the source list of length `per`, provided the running
index satisfies the loop invariant. -/
theorem distLoop_chunks (apis : List String) (per : ℕ)
    (hper : 1 ≤ per) :
    ∀ (ops : List String) (idx : ℕ),
      (idx + per * ops.length ≤ apis.length ∨ (per = 1 ∧ idx < apis.length)) →
      ∀ chunk ∈ distLoop apis per idx ops,
        ∃ s, s + per ≤ apis.length ∧ chunk = (apis.drop s).take per := by
  intro ops
  induction ops with
  | nil =>
    intro idx _ chunk hc
    simp [distLoop] at hc
  | cons o ops ih =>
    intro idx hinv chunk hc
    have hstep : idx + per ≤ apis.length := by
      rcases hinv with h | ⟨hp1, hidx⟩
      · have : per ≤ per * (o :: ops).length := by
          have : 1 ≤ (o :: ops).length := by simp
          calc per = per * 1 := by ring
            _ ≤ per * (o :: ops).length := Nat.mul_le_mul_left per this
        omega
      · omega
    have hchunklen : ((apis.drop idx).take per).length = per := by
      simp only [List.length_take, List.length_drop]
      omega
    simp only [distLoop, List.mem_cons] at hc
    rcases hc with rfl | hc
    · exact ⟨idx, hstep, rfl⟩
    · rw [hchunklen] at hc
      refine ih _ ?_ chunk hc
      rcases hinv with h | ⟨hp1, hidx⟩
      · simp only [List.length_cons] at h
        by_cases hreset : apis.length ≤ idx + per
        · have hops0 : per * ops.length = 0 := by nlinarith [h, hreset]
          have : ops.length = 0 := by
            rcases Nat.mul_eq_zero.mp hops0 with hz | hz
            · omega
            · exact hz
          rw [if_pos hreset]
          left
          simp [this]
        · rw [if_neg hreset]
          left
          nlinarith [h]
      · subst hp1
        by_cases hreset : apis.length ≤ idx + 1
        · rw [if_pos hreset]
          right
          exact ⟨rfl, by omega⟩
        · rw [if_neg hreset]
          right
          exact ⟨rfl, by omega⟩

/-- Claim C7 as amended: with `n` operators and a non-empty source list, both
sharding routines assign each operator a contiguous subset of the sources of
size `max (⌊|sources|/n⌋) 1` — the floor of the quotient (at least one), not
the ceiling — wrapping back to index 0 when the source list is exhausted. -/
theorem C7_distribution_floor (task : TemperatureTask)
    (operators availableAPIs : List String) (now timeout : ℚ)
    (hops : operators ≠ []) (hapis : availableAPIs ≠ []) :
    (∀ d ∈ createTaskDistributions task operators availableAPIs now timeout,
       ∃ s, s + max (availableAPIs.length / operators.length) 1 ≤ availableAPIs.length ∧
         d.AssignedAPIs =
           (availableAPIs.drop s).take (max (availableAPIs.length / operators.length) 1) ∧
         d.AssignedAPIs.length = max (availableAPIs.length / operators.length) 1) ∧
    (∀ i, i < operators.length →
       ∃ s, s + max (availableAPIs.length / operators.length) 1 ≤ availableAPIs.length ∧
         getAPISubsetForOperator i availableAPIs operators.length =
           (availableAPIs.drop s).take (max (availableAPIs.length / operators.length) 1)) := by
  have hlenops : 1 ≤ operators.length := List.length_pos.mpr hops
  have hlenapis : 1 ≤ availableAPIs.length := List.length_pos.mpr hapis
  set per := max (availableAPIs.length / operators.length) 1 with hperdef
  have hper1 : 1 ≤ per := le_max_right _ _
  have hinv0 : 0 + per * operators.length ≤ availableAPIs.length ∨
      (per = 1 ∧ 0 < availableAPIs.length) := by
    by_cases hdiv : 1 ≤ availableAPIs.length / operators.length
    · left
      have hpereq : per = availableAPIs.length / operators.length := by
        rw [hperdef]
        exact max_eq_left hdiv
      rw [hpereq]
      have := Nat.div_mul_le_self availableAPIs.length operators.length
      omega
    · right
      have hdiv0 : availableAPIs.length / operators.length = 0 :=
        Nat.lt_one_iff.mp (Nat.not_le.mp hdiv)
      constructor
      · rw [hperdef, hdiv0]
        simp
      · omega
  constructor
  · intro d hd
    simp only [createTaskDistributions, List.mem_map] at hd
    obtain ⟨chunk, hchunk, rfl⟩ := hd
    obtain ⟨s, hs, hceq⟩ := distLoop_chunks availableAPIs per hper1 operators 0 hinv0 chunk hchunk
    refine ⟨s, hs, hceq, ?_⟩
    rw [hceq]
    simp only [List.length_take, List.length_drop]
    omega
  · intro i hi
    unfold getAPISubsetForOperator
    by_cases hdiv : 1 ≤ availableAPIs.length / operators.length
    · have hpereq : per = availableAPIs.length / operators.length := by
        rw [hperdef]
        exact max_eq_left hdiv
      have hmul : per * operators.length ≤ availableAPIs.length := by
        rw [hpereq]
        have := Nat.div_mul_le_self availableAPIs.length operators.length
        omega
      have hfit : i * per + per ≤ availableAPIs.length := by
        have : (i + 1) * per ≤ operators.length * per := by
          exact Nat.mul_le_mul_right per (by omega)
        nlinarith
      have hstart : ¬availableAPIs.length ≤ i * per := by omega
      rw [if_neg (by rw [← hperdef]; exact hstart)]
      refine ⟨i * per, by omega, ?_⟩
      rw [← hperdef]
      have hstop : min (i * per + per) availableAPIs.length = i * per + per := by
        omega
      rw [hstop]
      congr 1
      omega
    · have hdiv0 : availableAPIs.length / operators.length = 0 :=
        Nat.lt_one_iff.mp (Nat.not_le.mp hdiv)
      have hpereq : per = 1 := by
        rw [hperdef, hdiv0]
        simp
      rw [← hperdef, hpereq]
      by_cases hbig : availableAPIs.length ≤ i * 1
      · rw [if_pos hbig]
        refine ⟨0, by omega, ?_⟩
        simp
      · rw [if_neg hbig]
        refine ⟨i * 1, by omega, ?_⟩
        have hstop : min (i * 1 + 1) availableAPIs.length = i * 1 + 1 := by omega
        rw [hstop]
        congr 1
        omega

/-- Witness for the amended C7 theorem at a concrete input. -/
theorem C7_distribution_floor_witness :
    (∀ d ∈ createTaskDistributions taskT1 opsThree apisFive 0 60,
       ∃ s, s + max (apisFive.length / opsThree.length) 1 ≤ apisFive.length ∧
         d.AssignedAPIs = (apisFive.drop s).take (max (apisFive.length / opsThree.length) 1) ∧
         d.AssignedAPIs.length = max (apisFive.length / opsThree.length) 1) ∧
    (∀ i, i < opsThree.length →
       ∃ s, s + max (apisFive.length / opsThree.length) 1 ≤ apisFive.length ∧
         getAPISubsetForOperator i apisFive opsThree.length =
           (apisFive.drop s).take (max (apisFive.length / opsThree.length) 1)) :=
  C7_distribution_floor taskT1 opsThree apisFive 0 60 (by decide) (by decide)

/-! Claim C8. -/

/-- A first response from operator `op1`. -/
def respA : OperatorResponse :=
  { OperatorID := "op1", TaskID := "t1", DataPoints := [], Signature := 0, Timestamp := 0 }

/-- A second, distinct response from the same operator `op1`. -/
def respB : OperatorResponse :=
  { OperatorID := "op1", TaskID := "t1", DataPoints := [], Signature := 7, Timestamp := 5 }

/-- A distributed task state that already holds `respA`. -/
def tsDistributed : TaskState :=
  { Task := taskT1, Status := .Distributed, Operators := ["op1"], Responses := [respA]
    ConsensusResultOpt := none, CreatedAt := 0, UpdatedAt := 0 }

/-- A task map holding `tsDistributed` under key `t1`. -/
def mapM8 : TaskMap := [("t1", tsDistributed)]

/-- Claim C8: for a stored task in a response-accepting state with the sender
among its committed operators, a `CollectResponses` call is accepted (appended
to the response list) exactly when that operator has not responded yet; when a
response from the same operator is already retained, the call is rejected as a
duplicate and the task's response list is unchanged — so at most one response
per (task, operator) is ever retained. -/
theorem C8_single_response_per_operator (m : TaskMap) (taskID : String)
    (response : OperatorResponse) (now : ℚ) (ts : TaskState)
    (hget : mapGet m taskID = some ts)
    (hstatus : ts.Status = .Distributed ∨ ts.Status = .Executing)
    (hop : response.OperatorID ∈ ts.Operators) :
    ((∃ r ∈ ts.Responses, r.OperatorID = response.OperatorID) →
       (collectResponses m taskID response now).2 = some .duplicateResponse ∧
       (mapGet (collectResponses m taskID response now).1 taskID).map
         (fun t => t.Responses) = some ts.Responses) ∧
    ((¬∃ r ∈ ts.Responses, r.OperatorID = response.OperatorID) →
       (collectResponses m taskID response now).2 = none ∧
       (mapGet (collectResponses m taskID response now).1 taskID).map
         (fun t => t.Responses) = some (ts.Responses ++ [response])) := by
  have hnotboth : ¬(ts.Status ≠ .Distributed ∧ ts.Status ≠ .Executing) := by
    rcases hstatus with h | h <;> simp [h]
  have hts1ops :
      (if ts.Status = .Distributed then { ts with Status := .Executing } else ts).Operators
        = ts.Operators := by
    split <;> rfl
  have hts1resp :
      (if ts.Status = .Distributed then { ts with Status := .Executing } else ts).Responses
        = ts.Responses := by
    split <;> rfl
  unfold collectResponses
  rw [hget]
  simp only [if_neg hnotboth]
  rw [if_pos (by rw [hts1ops]; exact hop)]
  constructor
  · intro hdup
    have hany :
        ((if ts.Status = .Distributed then { ts with Status := .Executing } else ts).Responses.any
          (fun r => r.OperatorID = response.OperatorID)) = true := by
      rw [hts1resp, List.any_eq_true]
      obtain ⟨r, hr, he⟩ := hdup
      exact ⟨r, hr, by simp [he]⟩
    rw [if_pos hany]
    refine ⟨rfl, ?_⟩
    rw [mapGet_mapSet_self]
    simp [hts1resp]
  · intro hndup
    have hany :
        ¬((if ts.Status = .Distributed then { ts with Status := .Executing } else ts).Responses.any
          (fun r => r.OperatorID = response.OperatorID)) = true := by
      rw [hts1resp, List.any_eq_true]
      rintro ⟨r, hr, he⟩
      exact hndup ⟨r, hr, by simpa using he⟩
    rw [if_neg hany]
    refine ⟨rfl, ?_⟩
    rw [mapGet_mapSet_self]
    simp [hts1resp]

/-- Witness for the C8 theorem at a concrete input: operator `op1` has already
responded, so its second response is rejected as a duplicate and the stored
response list is unchanged. -/
theorem C8_single_response_witness :
    (collectResponses mapM8 "t1" respB 9).2 = some .duplicateResponse ∧
    (mapGet (collectResponses mapM8 "t1" respB 9).1 "t1").map
      (fun t => t.Responses) = some tsDistributed.Responses :=
  (C8_single_response_per_operator mapM8 "t1" respB 9 tsDistributed rfl
    (Or.inl rfl) (by decide)).1 ⟨respA, by decide, rfl⟩

/-! Claim C1. -/

/-- Every evidence record built by `checkTriggerConditions` carries confidence
0: the Go code never assigns the `Confidence` field of the evidence. -/
theorem checkTrigger_conf_zero (trig : InsuranceTrigger) (w : List DataPoint)
    (d : CDate) : (checkTriggerConditions trig w d).2.Confidence = 0 := by
  simp only [checkTriggerConditions]
  repeat' split
  all_goals rfl

/-- Every triggered peril produced by `evaluateTriggers` carries evidence
confidence 0. -/
theorem evaluateTriggers_conf_zero (p : InsurancePolicy) (w : List DataPoint)
    (d : CDate) : ∀ peril ∈ evaluateTriggers p w d, peril.Evidence.Confidence = 0 := by
  have aux : ∀ (l : List InsuranceTrigger) (acc : List TriggeredPeril),
      (∀ x ∈ acc, x.Evidence.Confidence = 0) →
      ∀ y ∈ l.foldl (evalTriggerStep w d) acc, y.Evidence.Confidence = 0 := by
    intro l
    induction l with
    | nil => intro acc hacc y hy; exact hacc y hy
    | cons t rest ih =>
      intro acc hacc y hy
      refine ih _ ?_ y hy
      intro x hx
      unfold evalTriggerStep at hx
      by_cases hfire : (checkTriggerConditions t w d).1
      · rw [if_pos hfire] at hx
        rcases List.mem_append.mp hx with hx | hx
        · exact hacc x hx
        · rcases List.mem_singleton.mp hx with rfl
          exact checkTrigger_conf_zero t w d
      · rw [if_neg hfire] at hx
        exact hacc x hx
  intro peril hperil
  exact aux p.Triggers [] (by intro x hx; cases hx) peril hperil

/-- When every triggered peril has evidence confidence 0 the code's status
rule coincides with the amended spec rule. -/
theorem determineStatus_eq_amended (perils : List TriggeredPeril) (payout : ℚ)
    (hconf : ∀ x ∈ perils, x.Evidence.Confidence = 0) :
    determineClaimStatus perils payout = specStatusC1Amended perils payout := by
  unfold determineClaimStatus specStatusC1Amended
  by_cases hnil : perils = []
  · simp [hnil]
  · by_cases hpay : payout = 0
    · simp [hnil, hpay]
    · have hany : perils.any (fun p => p.Evidence.Confidence < 7 / 10) = true := by
        rw [List.any_eq_true]
        obtain ⟨hd, tl, rfl⟩ := List.exists_cons_of_ne_nil hnil
        refine ⟨hd, List.mem_cons_self hd tl, ?_⟩
        have h0 : hd.Evidence.Confidence = 0 := hconf hd (List.mem_cons_self hd tl)
        simp [h0]
      simp [hnil, hpay, hany]

/-- A concrete heat trigger with payout ratio 0. -/
def trigHeatZero : InsuranceTrigger :=
  { TriggerID := "heat", Peril := .heatWave
    Conditions :=
      { TemperatureMin := none, TemperatureMax := some 30, ConsecutiveDays := 0
        TimeWindow := { StartMonth := 0, EndMonth := 0, StartHour := 0, EndHour := 0 } }
    payoutFrac := 0, Description := "heat protection" }

/-- A concrete policy holding `trigHeatZero`. -/
def policyP1 : InsurancePolicy :=
  { PolicyID := "P1", PolicyHolder := "farm", CoverageAmount := 100000, Premium := 5000
    StartDate := 0, EndDate := 1000, Triggers := [trigHeatZero] }

/-- A hot observation that fires `trigHeatZero`. -/
def dpHot : DataPoint :=
  { Source := "A", Temperature := 35, Timestamp := 0, Confidence := 1, Signature := 0 }

/-- A claim date inside `policyP1`'s period. -/
def dateD1 : CDate := { time := 500, month := 7 }

/-- Claim C1 is false on the code: with a fired trigger of payout ratio 0 the
payout amount is 0 and `ProcessClaim` rejects the claim, while the claim's
stated selection rule (confidence 0 < 0.7 on a triggered peril) demands
`investigate`. -/
theorem C1_counterexample :
    (processClaim policyP1 [dpHot] dateD1 0).1.ClaimStatus = .rejected ∧
    specStatusC1 (evaluateTriggers policyP1 [dpHot] dateD1) = .investigate ∧
    evaluateTriggers policyP1 [dpHot] dateD1 ≠ [] := by
  with_unfolding_all decide

/-- Claim C1 as amended: for every in-period claim, the status returned by
`ProcessClaim` follows the selection rule extended with payout-0 rejection:
rejected when no trigger fired OR the computed payout amount is 0; otherwise
investigate when any triggered peril's evidence confidence is below 0.7;
otherwise partial when the chosen (maximal) payout ratio is below 1.0, else
approved. -/
theorem C1_processClaim_status (p : InsurancePolicy) (w : List DataPoint)
    (d : CDate) (now : ℚ) (h : ¬(d.time < p.StartDate ∨ p.EndDate < d.time)) :
    (processClaim p w d now).1.ClaimStatus =
      specStatusC1Amended (evaluateTriggers p w d)
        (calculatePayout p (evaluateTriggers p w d)) := by
  unfold processClaim
  rw [if_neg h]
  exact determineStatus_eq_amended _ _ (evaluateTriggers_conf_zero p w d)

/-- Witness for the amended C1 theorem at a concrete input. -/
theorem C1_processClaim_status_witness :
    (processClaim policyP1 [dpHot] dateD1 0).1.ClaimStatus =
      specStatusC1Amended (evaluateTriggers policyP1 [dpHot] dateD1)
        (calculatePayout policyP1 (evaluateTriggers policyP1 [dpHot] dateD1)) :=
  C1_processClaim_status policyP1 [dpHot] dateD1 0 (by decide)

/-! Claims C6 and C10: the weighted-consensus computation. -/

/-- Clamping written as an `if` equals the binary maximum. -/
theorem ite_lt_eq_max (a b : ℚ) : (if a < b then b else a) = max b a := by
  rcases lt_or_le a b with h | h
  · rw [if_pos h, max_eq_left (le_of_lt h)]
  · rw [if_neg (not_lt.mpr h), max_eq_right h]

/-- The code's clamped reliability weights are exactly the amended per-point
weights of claim C6. -/
theorem weights_as_map (now : ℚ) (dps : List DataPoint) :
    calculateReliabilityWeights now dps = dps.map (specWeightC6Amended now) := by
  unfold calculateReliabilityWeights
  rw [List.map_map]
  refine List.map_congr_left ?_
  intro dp _
  show (if rawReliabilityWeight now dp < 1 / 10 then 1 / 10 else rawReliabilityWeight now dp)
      = specWeightC6Amended now dp
  rw [ite_lt_eq_max]
  unfold specWeightC6Amended rawReliabilityWeight
  simp only []

/-- The weighted-sum loop as a list sum over the amended weights. -/
theorem weightedSumFold_eq (now : ℚ) (dps : List DataPoint) :
    weightedSumFold now dps =
      (dps.map (fun dp => specWeightC6Amended now dp * dp.Temperature)).sum := by
  unfold weightedSumFold
  rw [weights_as_map, zip_self_map, foldl_add_map_sum, List.map_map]
  simp [Function.comp_def, mul_comm]

/-- The total-weight loop as a list sum over the amended weights. -/
theorem totalWeightFold_eq (now : ℚ) (dps : List DataPoint) :
    totalWeightFold now dps = (dps.map (specWeightC6Amended now)).sum := by
  unfold totalWeightFold
  rw [weights_as_map, zip_self_map, foldl_add_map_sum, List.map_map]
  simp [Function.comp_def]

/-- The variance loop as a list sum over the amended weights. -/
theorem varianceFold_eq (now : ℚ) (dps : List DataPoint) (v : ℚ) :
    varianceFold now dps v =
      (dps.map (fun dp =>
        specWeightC6Amended now dp * (dp.Temperature - v) * (dp.Temperature - v))).sum := by
  unfold varianceFold
  rw [weights_as_map, zip_self_map, foldl_add_map_sum, List.map_map]
  simp [Function.comp_def]

/-- The agreement loop as a list sum. -/
theorem agreement_eq (dps : List DataPoint) (v : ℚ) (hne : dps ≠ []) :
    calculateAgreementScore dps v =
      max 0 (1 - ((dps.map (fun dp => |dp.Temperature - v|)).sum / dps.length) / 5) := by
  unfold calculateAgreementScore
  rw [if_neg hne, foldl_add_map_sum]
  simp

/-- A data point whose producer confidence is 0. -/
def dpA6 : DataPoint :=
  { Source := "srcA", Temperature := 10, Timestamp := 0, Confidence := 0, Signature := 0 }

/-- A data point with full confidence. -/
def dpB6 : DataPoint :=
  { Source := "srcB", Temperature := 20, Timestamp := 0, Confidence := 1, Signature := 0 }

/-- Claim C6 is false on the code: with a confidence-0 sample the code skips
the confidence multiplication (weight 0.8) while the claim's formula multiplies
by 0 and clamps (weight 0.1), so the two consensus values differ: the code
returns 15, the claim's formula gives 170/9. -/
theorem C6_counterexample :
    (weightedConsensus 0 [dpA6, dpB6]).1 = 15 ∧
    specValueC6 0 [dpA6, dpB6] = 170 / 9 ∧
    (15 : ℚ) ≠ 170 / 9 := by
  refine ⟨?_, ?_, by norm_num⟩
  · with_unfolding_all decide
  · with_unfolding_all decide

/-- Claim C6 as amended: for every non-empty survivor list the code's
consensus value and confidence equal the claim's formulas with the one
correction that the sample confidence multiplies the weight only when it is
positive: value `Σ w·x / Σ w`; weighted variance; stability
`1 − min(√σ²/10, 1)`; agreement `max(0, 1 − mean|x−v|/5)`; confidence their
average; median fallback with confidence 0.5 when the total weight is 0. -/
theorem C6_weightedConsensus_eq_spec (now : ℚ) (dps : List DataPoint)
    (hne : dps ≠ []) :
    weightedConsensus now dps = specConsensusC6Amended now dps := by
  unfold weightedConsensus specConsensusC6Amended
  rw [if_neg hne]
  simp only [weightedSumFold_eq, totalWeightFold_eq, varianceFold_eq,
    agreement_eq _ _ hne]

/-- Witness for the amended C6 theorem at a concrete input. -/
theorem C6_weightedConsensus_eq_spec_witness :
    weightedConsensus 0 [dpA6, dpB6] = specConsensusC6Amended 0 [dpA6, dpB6] :=
  C6_weightedConsensus_eq_spec 0 [dpA6, dpB6] (by decide)

/-- Claim C10: every reliability weight is clamped to at least 0.1, hence for
a non-empty input the total weight is strictly positive and the consensus
value is the weighted-sum-over-total-weight division — the zero-total-weight
median fallback is unreachable. -/
theorem C10_weight_floor (now : ℚ) (dps : List DataPoint) :
    (∀ w ∈ calculateReliabilityWeights now dps, 1 / 10 ≤ w) ∧
    (dps ≠ [] →
       0 < totalWeightFold now dps ∧
       (weightedConsensus now dps).1 =
         weightedSumFold now dps / totalWeightFold now dps) := by
  have hfloor : ∀ w ∈ calculateReliabilityWeights now dps, 1 / 10 ≤ w := by
    intro w hw
    rw [weights_as_map, List.mem_map] at hw
    obtain ⟨dp, -, rfl⟩ := hw
    exact le_max_left _ _
  refine ⟨hfloor, fun hne => ?_⟩
  have hpos : 0 < totalWeightFold now dps := by
    rw [totalWeightFold_eq]
    apply List.sum_pos
    · intro w hw
      rw [← weights_as_map] at hw
      exact lt_of_lt_of_le (by norm_num) (hfloor w hw)
    · simpa using hne
  refine ⟨hpos, ?_⟩
  unfold weightedConsensus
  rw [if_neg hne, if_neg (ne_of_gt hpos)]

/-- Witness for the C10 theorem at a concrete input. -/
theorem C10_weight_floor_witness :
    (∀ w ∈ calculateReliabilityWeights 0 [dpA6, dpB6], 1 / 10 ≤ w) ∧
    (0 < totalWeightFold 0 [dpA6, dpB6] ∧
     (weightedConsensus 0 [dpA6, dpB6]).1 =
       weightedSumFold 0 [dpA6, dpB6] / totalWeightFold 0 [dpA6, dpB6]) :=
  ⟨(C10_weight_floor 0 [dpA6, dpB6]).1,
   (C10_weight_floor 0 [dpA6, dpB6]).2 (by decide)⟩

/-! Claim C9. -/

/-- A consensus engine accepting a single source. -/
def engineOne : ConsensusEngine := { MinSources := 1, madThreshold := 5 / 2 }

/-- A fresh observation at time 0. -/
def dpX9 : DataPoint :=
  { Source := "A", Temperature := 10, Timestamp := 0, Confidence := 1, Signature := 0 }

/-- A fresh observation taken 40 minutes later. -/
def dpY9 : DataPoint :=
  { Source := "B", Temperature := 20, Timestamp := 2400, Confidence := 1, Signature := 0 }

/-- Claim C9 is false on the code: `ReachConsensus` reads the wall clock (the
age penalty uses `time.Since`), so two runs on the byte-identical input list
at different instants return different consensus values — 50/3 at second 2400
versus 65/4 at second 3000. -/
theorem C9_counterexample :
    ((reachConsensus engineOne 2400 [dpX9, dpY9]).toOption.map
      (fun r => r.Temperature)) = some (50 / 3) ∧
    ((reachConsensus engineOne 3000 [dpX9, dpY9]).toOption.map
      (fun r => r.Temperature)) = some (65 / 4) ∧
    (50 / 3 : ℚ) ≠ 65 / 4 := by
  refine ⟨?_, ?_, by norm_num⟩
  · with_unfolding_all decide
  · with_unfolding_all decide

/-- Claim C9 as amended: `ReachConsensus` is a pure function of the input
list and the evaluation instant; the survivor list and the aggregated
signature do not depend on the instant (only the value and the confidence
do, through the age penalty). -/
theorem C9_sig_clock_independent (c : ConsensusEngine) (dps : List DataPoint)
    (now1 now2 : ℚ) :
    ((reachConsensus c now1 dps).toOption.map
      (fun r => (r.DataPoints, r.AggregatedSig))) =
    ((reachConsensus c now2 dps).toOption.map
      (fun r => (r.DataPoints, r.AggregatedSig))) := by
  simp only [reachConsensus]
  by_cases h1 : dps.length < c.MinSources
  · simp [h1]
  · simp only [if_neg h1]
    by_cases h2 :
        (filterOutliers c dps (calculateMedian (dps.map fun dp => dp.Temperature))
          (calculateMAD (dps.map fun dp => dp.Temperature)
            (calculateMedian (dps.map fun dp => dp.Temperature)))).length < c.MinSources
    · simp [h2]
    · simp [h2, Except.toOption]

/-! Claim C5. -/

/-- Inserting into a list grows its length by one. -/
theorem insertR_length (x : ℚ) (l : List ℚ) :
    (insertR x l).length = l.length + 1 := by
  induction l with
  | nil => rfl
  | cons hd tl ih =>
    unfold insertR
    split
    · rfl
    · simp [ih]

/-- Members of an insertion are the inserted element or members of the list. -/
theorem mem_insertR {y x : ℚ} {l : List ℚ} (h : y ∈ insertR x l) :
    y = x ∨ y ∈ l := by
  induction l with
  | nil => simpa [insertR] using h
  | cons hd tl ih =>
    unfold insertR at h
    split at h
    · rcases List.mem_cons.mp h with h | h
      · exact Or.inl h
      · exact Or.inr h
    · rcases List.mem_cons.mp h with h | h
      · exact Or.inr (h ▸ List.mem_cons_self hd tl)
      · rcases ih h with h | h
        · exact Or.inl h
        · exact Or.inr (List.mem_cons_of_mem hd h)

/-- Sorting preserves length. -/
theorem sortR_length (l : List ℚ) : (sortR l).length = l.length := by
  induction l with
  | nil => rfl
  | cons hd tl ih =>
    show (insertR hd (sortR tl)).length = tl.length + 1
    rw [insertR_length, ih]

/-- Members of the sorted list are members of the original. -/
theorem mem_sortR {y : ℚ} {l : List ℚ} (h : y ∈ sortR l) : y ∈ l := by
  induction l with
  | nil => simpa [sortR] using h
  | cons hd tl ih =>
    rcases mem_insertR (l := sortR tl) h with h2 | h2
    · exact h2 ▸ List.mem_cons_self hd tl
    · exact List.mem_cons_of_mem hd (ih h2)

/-- Positional default reads of a list hit members when in range. -/
theorem getD_mem_of_lt {l : List ℚ} {i : ℕ} (h : i < l.length) (d : ℚ) :
    l.getD i d ∈ l := by
  induction l generalizing i with
  | nil => simp at h
  | cons hd tl ih =>
    cases i with
    | zero => simp
    | succ j =>
      simp only [List.getD_cons_succ]
      exact List.mem_cons_of_mem hd (ih (by simpa using h))

/-- The median of a non-empty constant list is the constant. -/
theorem median_const (l : List ℚ) (t : ℚ) (hne : l ≠ [])
    (hconst : ∀ y ∈ l, y = t) : calculateMedian l = t := by
  have hlen : (sortR l).length = l.length := sortR_length l
  have hpos : 0 < l.length := List.length_pos.mpr hne
  have hval : ∀ i, i < l.length → (sortR l).getD i 0 = t := by
    intro i hi
    exact hconst _ (mem_sortR (getD_mem_of_lt (by omega) 0))
  unfold calculateMedian
  simp only [hlen]
  split
  · have heven : l.length % 2 = 0 := by assumption
    have h2 : 2 ≤ l.length := by omega
    rw [hval (l.length / 2 - 1) (by omega), hval (l.length / 2) (by omega)]
    ring
  · rw [hval (l.length / 2) (by omega)]

/-- Claim C5: the survivors of `ReachConsensus` are exactly the observations
within `mad_threshold · mad` of the median (with the 0.01 floor when the MAD
is 0, so a non-negative threshold keeps every observation of a constant
list), and the call errors exactly when fewer than `min_sources` observations
are supplied or survive. -/
theorem C5_reachConsensus_quorum (c : ConsensusEngine) (now : ℚ)
    (dps : List DataPoint) (hmin : 0 < c.MinSources) :
    (∀ res, reachConsensus c now dps = .ok res →
       ∀ dp, dp ∈ res.DataPoints ↔
         dp ∈ dps ∧
         |dp.Temperature - calculateMedian (dps.map fun x => x.Temperature)| ≤
           c.madThreshold *
             (if calculateMAD (dps.map fun x => x.Temperature)
                  (calculateMedian (dps.map fun x => x.Temperature)) = 0 then 1 / 100
              else calculateMAD (dps.map fun x => x.Temperature)
                  (calculateMedian (dps.map fun x => x.Temperature)))) ∧
    ((∃ e, reachConsensus c now dps = .error e) ↔
       (dps.length < c.MinSources ∨
        (filterOutliers c dps (calculateMedian (dps.map fun x => x.Temperature))
          (calculateMAD (dps.map fun x => x.Temperature)
            (calculateMedian (dps.map fun x => x.Temperature)))).length <
          c.MinSources)) ∧
    (0 ≤ c.madThreshold → ∀ t, (∀ dp ∈ dps, dp.Temperature = t) →
       filterOutliers c dps (calculateMedian (dps.map fun x => x.Temperature))
         (calculateMAD (dps.map fun x => x.Temperature)
           (calculateMedian (dps.map fun x => x.Temperature))) = dps) := by
  refine ⟨?_, ?_, ?_⟩
  · intro res hres dp
    simp only [reachConsensus] at hres
    by_cases h1 : dps.length < c.MinSources
    · simp [h1] at hres
    · simp only [if_neg h1] at hres
      by_cases h2 :
          (filterOutliers c dps (calculateMedian (dps.map fun x => x.Temperature))
            (calculateMAD (dps.map fun x => x.Temperature)
              (calculateMedian (dps.map fun x => x.Temperature)))).length < c.MinSources
      · simp [h2] at hres
      · simp only [if_neg h2, Except.ok.injEq] at hres
        subst hres
        show dp ∈ filterOutliers c dps _ _ ↔ _
        unfold filterOutliers
        simp only [List.mem_filter, decide_eq_true_eq]
  · constructor
    · rintro ⟨e, he⟩
      simp only [reachConsensus] at he
      by_cases h1 : dps.length < c.MinSources
      · exact Or.inl h1
      · simp only [if_neg h1] at he
        by_cases h2 :
            (filterOutliers c dps (calculateMedian (dps.map fun x => x.Temperature))
              (calculateMAD (dps.map fun x => x.Temperature)
                (calculateMedian (dps.map fun x => x.Temperature)))).length < c.MinSources
        · exact Or.inr h2
        · simp [h2] at he
    · intro h
      simp only [reachConsensus]
      by_cases h1 : dps.length < c.MinSources
      · exact ⟨.insufficientSources, by simp [h1]⟩
      · rcases h with h | h
        · exact absurd h h1
        · exact ⟨.tooManyOutliers, by simp [h1, h]⟩
  · intro hthr t hconst
    by_cases hnil : dps = []
    · subst hnil
      rfl
    · have hne2 : dps.map (fun x => x.Temperature) ≠ [] := by
        simpa using hnil
      have hconst2 : ∀ y ∈ dps.map (fun x => x.Temperature), y = t := by
        intro y hy
        rw [List.mem_map] at hy
        obtain ⟨dp, hdp, rfl⟩ := hy
        exact hconst dp hdp
      have hmed : calculateMedian (dps.map fun x => x.Temperature) = t :=
        median_const _ t hne2 hconst2
      have hmad : calculateMAD (dps.map fun x => x.Temperature)
          (calculateMedian (dps.map fun x => x.Temperature)) = 0 := by
        rw [hmed]
        unfold calculateMAD
        apply median_const
        · simpa using hnil
        · intro y hy
          rw [List.map_map, List.mem_map] at hy
          obtain ⟨dp, hdp, rfl⟩ := hy
          simp [Function.comp_def, hconst dp hdp]
      unfold filterOutliers
      rw [hmad, if_pos rfl]
      apply List.filter_eq_self.mpr
      intro dp hdp
      rw [decide_eq_true_eq, hmed, hconst dp hdp]
      simp
      positivity

/-- Witness for the C5 theorem at a concrete input. -/
theorem C5_reachConsensus_quorum_witness :
    (∀ res, reachConsensus engineOne 0 [dpHot] = .ok res →
       ∀ dp, dp ∈ res.DataPoints ↔
         dp ∈ [dpHot] ∧
         |dp.Temperature - calculateMedian ([dpHot].map fun x => x.Temperature)| ≤
           engineOne.madThreshold *
             (if calculateMAD ([dpHot].map fun x => x.Temperature)
                  (calculateMedian ([dpHot].map fun x => x.Temperature)) = 0 then 1 / 100
              else calculateMAD ([dpHot].map fun x => x.Temperature)
                  (calculateMedian ([dpHot].map fun x => x.Temperature)))) ∧
    ((∃ e, reachConsensus engineOne 0 [dpHot] = .error e) ↔
       (([dpHot] : List DataPoint).length < engineOne.MinSources ∨
        (filterOutliers engineOne [dpHot]
          (calculateMedian ([dpHot].map fun x => x.Temperature))
          (calculateMAD ([dpHot].map fun x => x.Temperature)
            (calculateMedian ([dpHot].map fun x => x.Temperature)))).length <
          engineOne.MinSources)) ∧
    (0 ≤ engineOne.madThreshold → ∀ t, (∀ dp ∈ [dpHot], dp.Temperature = t) →
       filterOutliers engineOne [dpHot]
         (calculateMedian ([dpHot].map fun x => x.Temperature))
         (calculateMAD ([dpHot].map fun x => x.Temperature)
           (calculateMedian ([dpHot].map fun x => x.Temperature))) = [dpHot]) :=
  C5_reachConsensus_quorum engineOne 0 [dpHot] (by decide)

end Sunre
